import Mathlib

/-!
Verification development for the kirana-copilot agent tool layer
(`lib/tools.ts`, `lib/agent.ts`, `lib/db/schema.ts`), shallowly embedded:
rows are Lean structures, the database is explicit list state, each tool
is a pure state-passing function mirroring the TypeScript `execute` body,
and the zod input schemas are boolean validators over raw JSON numbers
(modelled as rationals).
-/

namespace Kirana

/-- JS `Number.isInteger` on a raw JSON number (zod `.int()` check). -/
def isIntQ (x : ℚ) : Bool := x.den == 1

/-- JS `String.prototype.toLowerCase` (ASCII case fold). -/
def toLowerS (s : String) : String := ⟨s.data.map Char.toLower⟩

/-- Drop leading and trailing whitespace from a character list. -/
def trimList (l : List Char) : List Char :=
  ((l.dropWhile Char.isWhitespace).reverse.dropWhile Char.isWhitespace).reverse

/-- JS `String.prototype.trim`. -/
def trimS (s : String) : String := ⟨trimList s.data⟩

/-- JS `String.prototype.startsWith`. -/
def startsWithS (s pre : String) : Bool := pre.data.isPrefixOf s.data

/-- Does `pat` occur as a contiguous run inside `l`? -/
def hasRun (pat : List Char) : List Char → Bool
  | [] => pat.isEmpty
  | c :: cs => pat.isPrefixOf (c :: cs) || hasRun pat cs

/-- JS `String.prototype.includes`: substring containment. -/
def containsSub (s pat : String) : Bool := hasRun pat.data s.data

-- ── Data model (lib/db/schema.ts) ─────────────────────────────────

/-- A catalog item row (`items` table). -/
structure Item where
  id : Nat
  storeId : Nat
  name : String
  aliases : List String
  unit : Option String
  currentStock : Int
  minStock : Int
  lastCostPrice : Option ℚ
deriving Repr, DecidableEq

/-- Transaction kind (`type` column: SALE | STOCK_IN | ADJUST). -/
inductive TxnType where
  | SALE
  | STOCK_IN
  | ADJUST
deriving Repr, DecidableEq

/-- A stock-movement log row (`transactions` table). -/
structure Txn where
  id : Nat
  storeId : Nat
  type : TxnType
  itemId : Nat
  qty : Int
  price : Option ℚ
deriving Repr, DecidableEq

/-- A ledger counterparty row (`ledger_parties` table). -/
structure Party where
  id : Nat
  storeId : Nat
  name : String
  phone : Option String
deriving Repr, DecidableEq

/-- A signed money-movement row (`ledger_entries` table). -/
structure Entry where
  id : Nat
  partyId : Nat
  deltaAmount : ℚ
  note : Option String
deriving Repr, DecidableEq

/-- The database state visible to one store's tool set. -/
structure StoreState where
  items : List Item
  txns : List Txn
  parties : List Party
  entries : List Entry
  nextItemId : Nat
  nextTxnId : Nat
  nextPartyId : Nat
  nextEntryId : Nat
deriving Repr, DecidableEq

-- ── Uniform tool response envelope ────────────────────────────────

/-- A candidate surfaced for disambiguation (`data.candidates`). -/
structure CandidateRef where
  id : Nat
  name : String
  aliases : List String := []
deriving Repr, DecidableEq

/-- One reorder suggestion (`data.suggestions` of suggest_reorder). -/
structure Suggestion where
  id : Nat
  name : String
  unit : Option String
  currentStock : Int
  minStock : Int
  suggestedQty : Int
  lastCostPrice : Option ℚ
deriving Repr, DecidableEq

/-- Structured `data` payload fields used by the embedded tools. -/
structure RespData where
  currentStock : Option Int := none
  newStock : Option Int := none
  warning : Option String := none
  itemId : Option Nat := none
  created : Option Bool := none
  candidates : List CandidateRef := []
  suggestions : List Suggestion := []
  partyId : Option Nat := none
  newBalance : Option ℚ := none
  addedCount : Option Nat := none
  createdCount : Option Nat := none
deriving Repr, DecidableEq

/-- The uniform `{ ok, code, message, data }` tool response. -/
structure ToolResponse where
  ok : Bool
  code : String
  message : String
  data : RespData := {}
deriving Repr, DecidableEq

/-- `success(code, message, data)` helper. -/
def success (code message : String) (data : RespData := {}) : ToolResponse :=
  { ok := true, code := code, message := message, data := data }

/-- `fail(code, message, data)` helper. -/
def fail (code message : String) (data : RespData := {}) : ToolResponse :=
  { ok := false, code := code, message := message, data := data }

-- ── Matching engine (rankItemMatches / rankPartyMatches) ──────────

/-- The tier score the item-ranking if/else-if chain assigns to one
candidate for an already case-folded, trimmed query; `none` means the
candidate is excluded. -/
def itemScore (q : String) (it : Item) : Option Nat :=
  let nameLower := toLowerS it.name
  if nameLower = q then some 100
  else if it.aliases.any (fun a => toLowerS a = q) then some 90
  else if startsWithS nameLower q then some 70
  else if it.aliases.any (fun a => startsWithS (toLowerS a) q) then some 60
  else if containsSub nameLower q then some 40
  else if it.aliases.any (fun a => containsSub (toLowerS a) q) then some 30
  else none

/-- Insert into a list sorted descending by score, after strictly
higher scores and before lower-or-equal ones (stable, as JS
`Array.prototype.sort` is). -/
def insertScoredDesc {α : Type} (x : α × Nat) : List (α × Nat) → List (α × Nat)
  | [] => [x]
  | y :: ys => if y.2 ≤ x.2 then x :: y :: ys else y :: insertScoredDesc x ys

/-- Stable sort descending by score (`sort((a, b) => b.score - a.score)`). -/
def sortScoredDesc {α : Type} : List (α × Nat) → List (α × Nat)
  | [] => []
  | x :: xs => insertScoredDesc x (sortScoredDesc xs)

/-- `rankItemMatches(allItems, query, limit)`. -/
def rankItemMatches (allItems : List Item) (query : String) (limit : Nat) :
    List Item :=
  let q := trimS (toLowerS query)
  let scored := allItems.filterMap fun it => (itemScore q it).map fun sc => (it, sc)
  ((sortScoredDesc scored).take limit).map (·.1)

/-- The tier score the party-ranking if/else-if chain assigns to one
candidate for an already case-folded, trimmed query. -/
def partyScore (q : String) (p : Party) : Option Nat :=
  let nameLower := toLowerS p.name
  if nameLower = q then some 100
  else if startsWithS nameLower q then some 70
  else if startsWithS q nameLower then some 50
  else if containsSub nameLower q then some 40
  else if containsSub q nameLower then some 20
  else none

/-- `rankPartyMatches(allParties, query, limit)`. -/
def rankPartyMatches (allParties : List Party) (query : String) (limit : Nat) :
    List Party :=
  let q := trimS (toLowerS query)
  let scored := allParties.filterMap fun p => (partyScore q p).map fun sc => (p, sc)
  ((sortScoredDesc scored).take limit).map (·.1)

-- ── Zod input validators (raw JSON numbers modelled as ℚ) ─────────

/-- `record_sale` qty schema: `z.number().int().positive()`. -/
def recordSaleQtyOk (qty : ℚ) : Bool := isIntQ qty && decide (0 < qty)

/-- `record_sale_batch` per-line qty schema: `z.number().int().positive()`. -/
def recordSaleBatchQtyOk (qty : ℚ) : Bool := isIntQ qty && decide (0 < qty)

/-- `add_stock` qty schema: `z.number().positive()` (no `.int()`). -/
def addStockQtyOk (qty : ℚ) : Bool := decide (0 < qty)

/-- `add_stock_batch` per-line qty schema: `z.number().positive()` (no `.int()`). -/
def addStockBatchQtyOk (qty : ℚ) : Bool := decide (0 < qty)

/-- `adjust_stock` qty schema: `z.number().int()` (signed; zero rejected later
in the execute body). -/
def adjustStockQtyOk (qty : ℚ) : Bool := isIntQ qty

-- ── record_sale ───────────────────────────────────────────────────

/-- The row predicate of record_sale's atomic guarded UPDATE:
`(id = item_id) AND (store_id = storeId) AND (current_stock >= qty)`. -/
def saleGuard (sid item_id : Nat) (qty : Int) (i : Item) : Bool :=
  i.id == item_id && i.storeId == sid && decide (qty ≤ i.currentStock)

/-- `record_sale` execute body: guarded decrement, failure triage by a
follow-up read, then SALE transaction insert and low-stock warning. -/
def recordSale (sid : Nat) (item_id : Nat) (qty : Int) (price : Option ℚ)
    (s : StoreState) : ToolResponse × StoreState :=
  let updated := (s.items.filter (saleGuard sid item_id qty)).map fun i =>
    { i with currentStock := i.currentStock - qty }
  match updated with
  | [] =>
    match s.items.find? (fun i => i.id == item_id && i.storeId == sid) with
    | none => (fail "ITEM_NOT_FOUND" "Item not found in your store.", s)
    | some item =>
      (fail "INSUFFICIENT_STOCK"
        ("Not enough stock for " ++ item.name ++ ". Current: " ++
          toString item.currentStock ++ ", needed: " ++ toString qty ++ ".")
        { currentStock := some item.currentStock }, s)
  | u :: _ =>
    let newTxn : Txn := { id := s.nextTxnId, storeId := sid, type := .SALE,
                          itemId := item_id, qty := qty, price := price }
    let s' : StoreState := { s with
      items := s.items.map fun i =>
        if saleGuard sid item_id qty i then
          { i with currentStock := i.currentStock - qty }
        else i,
      txns := s.txns ++ [newTxn],
      nextTxnId := s.nextTxnId + 1 }
    let warning : Option String :=
      if u.currentStock ≤ u.minStock then
        some ("Low stock alert: " ++ u.name ++ " is now at " ++
          toString u.currentStock ++ " (min: " ++ toString u.minStock ++ ").")
      else none
    (success "SALE_RECORDED"
      ("Sale recorded: " ++ u.name ++ " x" ++ toString qty ++
        ". Stock now: " ++ toString u.currentStock ++ ".")
      { newStock := some u.currentStock, warning := warning }, s')

-- ── add_stock / add_stock_batch ───────────────────────────────────

/-- The exactness gate add_stock applies to the top fuzzy candidate:
case-folded equality against the name or any alias. -/
def exactItemMatch (q : String) (it : Item) : Bool :=
  toLowerS it.name == q || it.aliases.any (fun a => toLowerS a == q)

/-- `add_stock` execute body: optional direct id lookup, ranked matching
with the ambiguity gate, auto-create, unconditional increment, STOCK_IN
transaction insert. -/
def addStock (sid : Nat) (item_id : Option Nat) (name : String) (qty : Int)
    (unit : Option String) (cost_per_unit : Option ℚ) (s : StoreState) :
    ToolResponse × StoreState :=
  let byId : Option Item :=
    match item_id with
    | some iid => s.items.find? (fun i => i.id == iid && i.storeId == sid)
    | none => none
  let resolved : Except ToolResponse (Option Item) :=
    match byId with
    | some it => .ok (some it)
    | none =>
      let allItems := s.items.filter (fun i => i.storeId == sid)
      let matchList := rankItemMatches allItems name 3
      match matchList with
      | [] => .ok none
      | [m] => .ok (some m)
      | m :: _ :: _ =>
        if exactItemMatch (trimS (toLowerS name)) m then .ok (some m)
        else .error (fail "AMBIGUOUS_MATCH"
          ("Multiple items match \"" ++ name ++ "\". Which one?")
          { candidates := matchList.map fun x =>
              { id := x.id, name := x.name, aliases := x.aliases } })
  match resolved with
  | .error r => (r, s)
  | .ok found =>
    let step3 : Item × Bool × StoreState :=
      match found with
      | some it => (it, false, s)
      | none =>
        let newItem : Item := { id := s.nextItemId, storeId := sid,
                                name := trimS name, aliases := [], unit := unit,
                                currentStock := 0, minStock := 5,
                                lastCostPrice := cost_per_unit }
        (newItem, true,
          { s with items := s.items ++ [newItem], nextItemId := s.nextItemId + 1 })
    let item := step3.1
    let created := step3.2.1
    let s1 := step3.2.2
    let newCost : Option ℚ :=
      match cost_per_unit with
      | some c => some c
      | none => item.lastCostPrice
    let s2 := { s1 with items := s1.items.map fun (i : Item) =>
      if i.id == item.id then
        { i with currentStock := i.currentStock + qty, lastCostPrice := newCost }
      else i }
    let totalCost : Option ℚ :=
      match cost_per_unit with
      | some c => if c == 0 then none else some (c * (qty : ℚ))
      | none => none
    let newTxn : Txn := { id := s2.nextTxnId, storeId := sid, type := .STOCK_IN,
                          itemId := item.id, qty := qty, price := totalCost }
    let s3 := { s2 with txns := s2.txns ++ [newTxn], nextTxnId := s2.nextTxnId + 1 }
    let newStock := item.currentStock + qty
    (success (if created then "ITEM_CREATED_AND_STOCKED" else "STOCK_ADDED")
      ((if created then "New item created. " else "") ++ "Stock added: " ++
        item.name ++ " +" ++ toString qty ++ ". Stock: " ++
        toString item.currentStock ++ " -> " ++ toString newStock ++ ".")
      { itemId := some item.id, newStock := some newStock, created := some created },
     s3)

/-- One entry of the `add_stock_batch` items array. -/
structure BatchStockEntry where
  name : String
  qty : Int
  unit : Option String
  costPerUnit : Option ℚ
deriving Repr, DecidableEq

/-- One loop iteration of `add_stock_batch`: resolve with limit 1
(taking `matches[0]` unconditionally), auto-create when no match at
all, increment, STOCK_IN insert. Returns the new state, the result
line, and whether a new item was created. -/
def addStockBatchLine (sid : Nat) (e : BatchStockEntry) (s : StoreState) :
    StoreState × String × Bool :=
  let allItems := s.items.filter (fun i => i.storeId == sid)
  let matchList := rankItemMatches allItems e.name 1
  let step : Item × Bool × StoreState :=
    match matchList.head? with
    | some it => (it, false, s)
    | none =>
      let newItem : Item := { id := s.nextItemId, storeId := sid,
                              name := trimS e.name, aliases := [], unit := e.unit,
                              currentStock := 0, minStock := 5,
                              lastCostPrice := e.costPerUnit }
      (newItem, true,
        { s with items := s.items ++ [newItem], nextItemId := s.nextItemId + 1 })
  let item := step.1
  let wasCreated := step.2.1
  let s1 := step.2.2
  let newCost : Option ℚ :=
    match e.costPerUnit with
    | some c => some c
    | none => item.lastCostPrice
  let s2 := { s1 with items := s1.items.map fun (i : Item) =>
    if i.id == item.id then
      { i with currentStock := i.currentStock + e.qty, lastCostPrice := newCost }
    else i }
  let totalCost : Option ℚ :=
    match e.costPerUnit with
    | some c => if c == 0 then none else some (c * (e.qty : ℚ))
    | none => none
  let newTxn : Txn := { id := s2.nextTxnId, storeId := sid, type := .STOCK_IN,
                        itemId := item.id, qty := e.qty, price := totalCost }
  let s3 := { s2 with txns := s2.txns ++ [newTxn], nextTxnId := s2.nextTxnId + 1 }
  (s3, item.name ++ " +" ++ toString e.qty ++ (if wasCreated then " (new)" else ""),
    wasCreated)

/-- The `add_stock_batch` loop over its lines, collecting result lines
and the names of newly created items. -/
def addStockBatchGo (sid : Nat) (entries : List BatchStockEntry)
    (s : StoreState) : StoreState × List String × List String :=
  match entries with
  | [] => (s, [], [])
  | e :: rest =>
    let r1 := addStockBatchLine sid e s
    let r2 := addStockBatchGo sid rest r1.1
    (r2.1, r1.2.1 :: r2.2.1,
      (if r1.2.2 then [e.name] else []) ++ r2.2.2)

/-- `add_stock_batch` execute body. -/
def addStockBatch (sid : Nat) (entries : List BatchStockEntry)
    (s : StoreState) : ToolResponse × StoreState :=
  let r := addStockBatchGo sid entries s
  let results := r.2.1
  let createdNames := r.2.2
  let msg := "Stock added: " ++ String.intercalate ", " results ++ "." ++
    (if createdNames.isEmpty then ""
     else " New items: " ++ String.intercalate ", " createdNames ++ ".")
  (success "STOCK_ADDED" msg
    { addedCount := some results.length, createdCount := some createdNames.length },
   r.1)

-- ── receive_payment ───────────────────────────────────────────────

/-- A party's balance: `COALESCE(SUM(delta_amount), 0)` over its entries. -/
def partyBalance (pid : Nat) (entries : List Entry) : ℚ :=
  ((entries.filter (fun e => e.partyId == pid)).map (fun e => e.deltaAmount)).sum

/-- Decimal-as-string rendering used in messages. -/
def ratStr (x : ℚ) : String :=
  if x.den == 1 then toString x.num
  else toString x.num ++ "/" ++ toString x.den

/-- The negative-balance warning text receive_payment appends to its
message (empty when the balance is not negative). -/
def receivePaymentWarning (numBalance : ℚ) (partyName : String) : String :=
  if numBalance < 0 then
    " Warning: balance is negative (₹" ++ ratStr numBalance ++ ") — shop owes " ++
      partyName ++ "."
  else ""

/-- `receive_payment` execute body: ranked matching (no auto-create),
ambiguity gate on the top candidate, append a `-amount` entry, recompute
the live balance, warn (without blocking) when it went negative. -/
def receivePayment (sid : Nat) (party_name : String) (amount : ℚ)
    (note : Option String) (s : StoreState) : ToolResponse × StoreState :=
  let allParties := s.parties.filter (fun p => p.storeId == sid)
  let matchList := rankPartyMatches allParties party_name 3
  match matchList with
  | [] =>
    (fail "PARTY_NOT_FOUND"
      ("Customer \"" ++ party_name ++ "\" not found in ledger. Check the name."), s)
  | party :: rest =>
    if rest.length > 0 && !(toLowerS party.name == trimS (toLowerS party_name)) then
      (fail "AMBIGUOUS_MATCH"
        ("Multiple customers match \"" ++ party_name ++ "\". Which one?")
        { candidates := (party :: rest).map fun m => { id := m.id, name := m.name } },
       s)
    else
      let newEntry : Entry := { id := s.nextEntryId, partyId := party.id,
                                deltaAmount := -amount, note := note }
      let entries1 := s.entries ++ [newEntry]
      let numBalance := partyBalance party.id entries1
      (success "PAYMENT_RECEIVED"
        ("Payment received: " ++ party.name ++ " se ₹" ++ ratStr amount ++
          " mil gaye. Remaining balance: ₹" ++ ratStr numBalance ++ "." ++
          receivePaymentWarning numBalance party.name)
        { partyId := some party.id, newBalance := some numBalance },
       { s with entries := entries1, nextEntryId := s.nextEntryId + 1 })

-- ── suggest_reorder ───────────────────────────────────────────────

/-- Insert into a list sorted ascending by an integer key. -/
def insertKeyAsc {α : Type} (key : α → Int) (x : α) : List α → List α
  | [] => [x]
  | y :: ys => if key x < key y then x :: y :: ys else y :: insertKeyAsc key x ys

/-- Sort ascending by an integer key (`ORDER BY current_stock - min_stock`). -/
def sortKeyAsc {α : Type} (key : α → Int) : List α → List α
  | [] => []
  | x :: xs => insertKeyAsc key x (sortKeyAsc key xs)

/-- `suggest_reorder` execute body (read-only): low-stock rows sorted by
criticality, each mapped to a suggested order quantity
`max(minStock * 2 - currentStock, minStock)`. -/
def suggestReorder (sid : Nat) (limit : Nat) (s : StoreState) : ToolResponse :=
  let lowItems := (sortKeyAsc (fun i => i.currentStock - i.minStock)
    (s.items.filter (fun i =>
      i.storeId == sid && decide (i.currentStock ≤ i.minStock)))).take limit
  match lowItems with
  | [] => success "NO_REORDER_NEEDED" "No reorder needed. All items above minimum stock."
  | _ :: _ =>
    let suggestions := lowItems.map fun i =>
      ({ id := i.id, name := i.name, unit := i.unit,
         currentStock := i.currentStock, minStock := i.minStock,
         suggestedQty := max (i.minStock * 2 - i.currentStock) i.minStock,
         lastCostPrice := i.lastCostPrice } : Suggestion)
    success "REORDER_SUGGESTED"
      (toString suggestions.length ++ " item(s) need reordering.")
      { suggestions := suggestions }

-- ── undo_action ───────────────────────────────────────────────────

/-- The undo_action `action_type` enum. -/
inductive ActionType where
  | transaction
  | ledger
deriving Repr, DecidableEq

/-- Transaction-type label used in undo messages. -/
def TxnType.str : TxnType → String
  | .SALE => "SALE"
  | .STOCK_IN => "STOCK_IN"
  | .ADJUST => "ADJUST"

/-- `undo_action` execute body: re-verify tenant ownership, reverse the
stock effect (SALE: unconditional add-back; STOCK_IN: guarded subtract,
`UNDO_FAILED` when the guard matches no row; ADJUST: unconditional
subtract of the signed qty), then delete the transaction row. For a
ledger entry: verify the owning party belongs to the store, then delete
the entry. -/
def undoAction (sid : Nat) (action_type : ActionType) (action_id : Nat)
    (s : StoreState) : ToolResponse × StoreState :=
  match action_type with
  | .transaction =>
    match s.txns.find? (fun t => t.id == action_id && t.storeId == sid) with
    | none =>
      (fail "NOT_FOUND" ("Transaction T" ++ toString action_id ++ " not found."), s)
    | some txn =>
      let reversed : Option (List Item) :=
        match txn.type with
        | .SALE => some (s.items.map fun i =>
            if i.id == txn.itemId then
              { i with currentStock := i.currentStock + txn.qty }
            else i)
        | .STOCK_IN =>
          if (s.items.filter (fun i =>
              i.id == txn.itemId && decide (txn.qty ≤ i.currentStock))).isEmpty then
            none
          else some (s.items.map fun i =>
            if i.id == txn.itemId && decide (txn.qty ≤ i.currentStock) then
              { i with currentStock := i.currentStock - txn.qty }
            else i)
        | .ADJUST => some (s.items.map fun i =>
            if i.id == txn.itemId then
              { i with currentStock := i.currentStock - txn.qty }
            else i)
      match reversed with
      | none =>
        (fail "UNDO_FAILED" ("Cannot undo STOCK_IN T" ++ toString action_id ++
          " — current stock is less than " ++ toString txn.qty ++ "."), s)
      | some items1 =>
        let s' := { s with items := items1,
                           txns := s.txns.filter fun t => !(t.id == action_id) }
        let itemName :=
          match s'.items.find? (fun i => i.id == txn.itemId) with
          | some i => i.name
          | none => "unknown"
        (success "ACTION_UNDONE"
          ("Undone: " ++ txn.type.str ++ " of " ++ itemName ++ " x" ++
            toString txn.qty ++ " (T" ++ toString action_id ++ ")."), s')
  | .ledger =>
    match s.entries.find? (fun e => e.id == action_id) with
    | none =>
      (fail "NOT_FOUND" ("Ledger entry L" ++ toString action_id ++ " not found."), s)
    | some entry =>
      match s.parties.find? (fun p =>
          p.id == entry.partyId && p.storeId == sid) with
      | none =>
        (fail "NOT_FOUND" ("Ledger entry L" ++ toString action_id ++
          " does not belong to your store."), s)
      | some party =>
        let s' := { s with entries := s.entries.filter fun e => !(e.id == action_id) }
        let label := if 0 < entry.deltaAmount then "udhar" else "payment"
        (success "ACTION_UNDONE"
          ("Undone: " ++ label ++ " of ₹" ++ ratStr (abs entry.deltaAmount) ++
            " for " ++ party.name ++ " (L" ++ toString action_id ++ ")."), s')

-- ── Agent session (lib/agent.ts) ──────────────────────────────────

/-- One planner decision in a round: request a tool call or emit final text. -/
inductive PlanStep where
  | toolCall
  | finalText (t : String)

/-- Modelled from the spec: the planner/LLM runtime (`generateText` of the
external ai SDK, configured by `runAgent` with `stopWhen: stepCountIs(5)`)
is an opaque capability that runs planner rounds, each either a tool call
or final text, and must stop after the bounded step count; on reaching
the cap without final text the accumulated text is empty. The planner is
abstracted as a function from the round number to its decision. Returns
the number of rounds used and the final text. -/
def runSteps (planner : Nat → PlanStep) : Nat → Nat → Nat × String
  | 0, used => (used, "")
  | fuel + 1, used =>
    match planner used with
    | .finalText t => (used + 1, t)
    | .toolCall => runSteps planner fuel (used + 1)

/-- `runAgent` (lib/agent.ts): one turn with the step cap fixed at 5 and
the empty-text fallback `text || "Done."`. -/
def runAgent (planner : Nat → PlanStep) : Nat × String :=
  let r := runSteps planner 5 0
  (r.1, if r.2 = "" then "Done." else r.2)

-- ── Concrete fixtures used by witnesses ───────────────────────────

/-- The raw JSON number 2.5 (a non-integer quantity). -/
def fracQty : ℚ := { num := 5, den := 2, den_nz := by decide, reduced := by norm_num }

/-- "Maggi" with stock 24, threshold 5 (spec scenario). -/
def maggi : Item := ⟨1, 1, "Maggi", [], some "pcs", 24, 5, none⟩

/-- Store 1 with only the Maggi item. -/
def stMaggi : StoreState := ⟨[maggi], [], [], [], 2, 1, 1, 1⟩

/-- Store 1 with Maggi and one recorded SALE of qty 3 against it. -/
def stSale : StoreState := ⟨[maggi], [⟨7, 1, .SALE, 1, 3, none⟩], [], [], 2, 8, 1, 1⟩

/-- An item with zero stock. -/
def oilItem : Item := ⟨2, 1, "Oil", [], none, 0, 5, none⟩

/-- Store 1 with a positive ADJUST transaction against the zero-stock item. -/
def stAdjust : StoreState := ⟨[oilItem], [⟨9, 1, .ADJUST, 2, 5, none⟩], [], [], 3, 10, 1, 1⟩

/-- An item whose name contains "cola" (substring tier). -/
def cocaCola : Item := ⟨1, 1, "Coca Cola", [], none, 10, 5, none⟩

/-- An item whose name starts with "cola" (no exact match either). -/
def colaCandy : Item := ⟨2, 1, "Cola Candy", [], none, 10, 5, none⟩

/-- Store 1 whose catalog makes the query "cola" ambiguous with no exact match. -/
def stCola : StoreState := ⟨[cocaCola, colaCandy], [], [], [], 3, 1, 1, 1⟩

/-- The item whose alias "doodh" matches the query exactly. -/
def amulMilk : Item := ⟨1, 1, "Amul Milk", ["doodh"], some "pcs", 10, 5, none⟩

/-- An item merely containing "doodh" in its name. -/
def parleDoodh : Item := ⟨2, 1, "Parle Doodh Biscuit", [], none, 8, 5, none⟩

/-- Another item merely containing "doodh" in its name. -/
def dairyDoodh : Item := ⟨3, 1, "Mother Dairy Doodh Toffee", [], none, 6, 5, none⟩

/-- Catalog where the alias-exact item is not listed first. -/
def doodhCatalog : List Item := [parleDoodh, amulMilk, dairyDoodh]

/-- A ledger party of store 1. -/
def ramesh : Party := ⟨1, 1, "Ramesh", none⟩

/-- Store 1 with Ramesh owing 100. -/
def stRamesh : StoreState := ⟨[], [], [ramesh], [⟨1, 1, 100, none⟩], 1, 1, 2, 2⟩

/-- A deeply negative low-stock item (stock -7, threshold 5). -/
def lowOil : Item := ⟨3, 1, "Oil Can", [], none, -7, 5, none⟩

/-- Store 1 with only the deeply negative low-stock item. -/
def stLow : StoreState := ⟨[lowOil], [], [], [], 4, 1, 1, 1⟩

-- ── Helper lemmas ─────────────────────────────────────────────────

/-- Members of a list whose image is duplicate-free are determined by
their image. -/
theorem nodup_map_mem_inj {α β : Type} {f : α → β} :
    ∀ {l : List α}, (l.map f).Nodup →
      ∀ {a b : α}, a ∈ l → b ∈ l → f a = f b → a = b := by
  intro l
  induction l with
  | nil => intro _ a b ha; cases ha
  | cons x xs ih =>
    intro hnd a b ha hb hfab
    rw [List.map_cons, List.nodup_cons] at hnd
    rcases List.mem_cons.mp ha with rfl | ha' <;>
      rcases List.mem_cons.mp hb with rfl | hb'
    · rfl
    · exact absurd (hfab ▸ List.mem_map_of_mem f hb') hnd.1
    · exact absurd (hfab ▸ List.mem_map_of_mem f ha') hnd.1
    · exact ih hnd.2 ha' hb' hfab

/-- `find?` returns the unique element satisfying the predicate. -/
theorem find?_eq_some_of_unique {α : Type} {p : α → Bool} :
    ∀ {l : List α} {a : α}, a ∈ l → p a = true →
      (∀ b ∈ l, p b = true → b = a) → l.find? p = some a := by
  intro l
  induction l with
  | nil => intro a ha; cases ha
  | cons x xs ih =>
    intro a ha hpa huniq
    by_cases hpx : p x = true
    · rw [List.find?_cons_of_pos _ hpx]
      exact congrArg some (huniq x (List.mem_cons_self x xs) hpx)
    · rw [List.find?_cons_of_neg _ hpx]
      rcases List.mem_cons.mp ha with rfl | ha'
      · exact absurd hpa hpx
      · exact ih ha' hpa fun b hb hpb => huniq b (List.mem_cons_of_mem x hb) hpb

/-- Membership through `insertScoredDesc`. -/
theorem mem_insertScoredDesc {α : Type} {x z : α × Nat} :
    ∀ {l : List (α × Nat)}, z ∈ insertScoredDesc x l ↔ z = x ∨ z ∈ l := by
  intro l
  induction l with
  | nil => simp [insertScoredDesc]
  | cons y ys ih =>
    by_cases h : y.2 ≤ x.2
    · simp [insertScoredDesc, h]
    · simp only [insertScoredDesc, if_neg h, List.mem_cons, ih]
      tauto

/-- Membership through `sortScoredDesc`. -/
theorem mem_sortScoredDesc {α : Type} {z : α × Nat} :
    ∀ {l : List (α × Nat)}, z ∈ sortScoredDesc l ↔ z ∈ l := by
  intro l
  induction l with
  | nil => simp [sortScoredDesc]
  | cons y ys ih =>
    simp only [sortScoredDesc, mem_insertScoredDesc, List.mem_cons, ih]

/-- `insertScoredDesc` preserves descending sortedness by score. -/
theorem pairwise_insertScoredDesc {α : Type} {x : α × Nat} :
    ∀ {l : List (α × Nat)}, l.Pairwise (fun a b => b.2 ≤ a.2) →
      (insertScoredDesc x l).Pairwise (fun a b => b.2 ≤ a.2) := by
  intro l
  induction l with
  | nil => intro _; simp [insertScoredDesc]
  | cons y ys ih =>
    intro h
    rw [List.pairwise_cons] at h
    by_cases hle : y.2 ≤ x.2
    · rw [insertScoredDesc, if_pos hle, List.pairwise_cons]
      constructor
      · intro z hz
        rcases List.mem_cons.mp hz with rfl | hz'
        · exact hle
        · exact le_trans (h.1 z hz') hle
      · exact List.pairwise_cons.mpr h
    · rw [insertScoredDesc, if_neg hle, List.pairwise_cons]
      constructor
      · intro z hz
        rcases mem_insertScoredDesc.mp hz with rfl | hz'
        · exact le_of_lt (Nat.lt_of_not_le hle)
        · exact h.1 z hz'
      · exact ih h.2

/-- `sortScoredDesc` sorts descending by score. -/
theorem pairwise_sortScoredDesc {α : Type} :
    ∀ (l : List (α × Nat)), (sortScoredDesc l).Pairwise (fun a b => b.2 ≤ a.2) := by
  intro l
  induction l with
  | nil => simp [sortScoredDesc]
  | cons y ys ih => exact pairwise_insertScoredDesc ih

/-- Membership through `insertKeyAsc`. -/
theorem mem_insertKeyAsc {α : Type} {key : α → Int} {x z : α} :
    ∀ {l : List α}, z ∈ insertKeyAsc key x l ↔ z = x ∨ z ∈ l := by
  intro l
  induction l with
  | nil => simp [insertKeyAsc]
  | cons y ys ih =>
    by_cases h : key x < key y
    · simp [insertKeyAsc, h]
    · simp only [insertKeyAsc, if_neg h, List.mem_cons, ih]
      tauto

/-- Membership through `sortKeyAsc`. -/
theorem mem_sortKeyAsc {α : Type} {key : α → Int} {z : α} :
    ∀ {l : List α}, z ∈ sortKeyAsc key l ↔ z ∈ l := by
  intro l
  induction l with
  | nil => simp [sortKeyAsc]
  | cons y ys ih =>
    simp only [sortKeyAsc, mem_insertKeyAsc, List.mem_cons, ih]

-- ── Claim theorems ────────────────────────────────────────────────

/-- C9: a single agent turn performs at most 5 planner/tool-call rounds
(the `stepCountIs(5)` cap) and always returns a non-empty reply: when the
planner produces no final text, the fallback "Done." is returned. -/
theorem agent_turn_bounded_and_nonempty (planner : Nat → PlanStep) :
    (runAgent planner).1 ≤ 5 ∧ (runAgent planner).2 ≠ "" := by
  have hle : ∀ (fuel used : Nat), (runSteps planner fuel used).1 ≤ used + fuel := by
    intro fuel
    induction fuel with
    | zero => intro used; simp [runSteps]
    | succ n ih =>
      intro used
      rw [runSteps]
      cases hp : planner used with
      | finalText t => dsimp only; omega
      | toolCall =>
        have := ih (used + 1)
        dsimp only
        omega
  constructor
  · have h5 := hle 5 0
    unfold runAgent
    simpa using h5
  · unfold runAgent
    dsimp only
    split
    · decide
    · assumption

/-- C4: the claim that every stock-mutating tool validates integer qty is
contradicted by the code at qty = 2.5: the add_stock and add_stock_batch
zod schemas (`z.number().positive()`, no `.int()`) accept it, although it
is not an integer, while record_sale, record_sale_batch and adjust_stock
(`.int()`) reject it. -/
theorem stock_qty_validation_gap :
    addStockQtyOk fracQty = true ∧ addStockBatchQtyOk fracQty = true ∧
    isIntQ fracQty = false ∧
    recordSaleQtyOk fracQty = false ∧ recordSaleBatchQtyOk fracQty = false ∧
    adjustStockQtyOk fracQty = false := by
  decide

/-- C6: party ranking assigns the first matching tier — exact name 100,
name starts with the query 70, query is a prefix of the name 50, name
contains the query 40, query contains the name 20 — and excludes parties
matching no tier; every ranked result matched some tier. -/
theorem party_ranking_tiers :
    (∀ (p : Party) (q : String),
      (toLowerS p.name = q → partyScore q p = some 100) ∧
      (toLowerS p.name ≠ q → startsWithS (toLowerS p.name) q = true →
        partyScore q p = some 70) ∧
      (toLowerS p.name ≠ q → startsWithS (toLowerS p.name) q = false →
        startsWithS q (toLowerS p.name) = true → partyScore q p = some 50) ∧
      (toLowerS p.name ≠ q → startsWithS (toLowerS p.name) q = false →
        startsWithS q (toLowerS p.name) = false →
        containsSub (toLowerS p.name) q = true → partyScore q p = some 40) ∧
      (toLowerS p.name ≠ q → startsWithS (toLowerS p.name) q = false →
        startsWithS q (toLowerS p.name) = false →
        containsSub (toLowerS p.name) q = false →
        containsSub q (toLowerS p.name) = true → partyScore q p = some 20) ∧
      (toLowerS p.name ≠ q → startsWithS (toLowerS p.name) q = false →
        startsWithS q (toLowerS p.name) = false →
        containsSub (toLowerS p.name) q = false →
        containsSub q (toLowerS p.name) = false → partyScore q p = none)) ∧
    (∀ (parties : List Party) (query : String) (limit : Nat),
      ∀ p ∈ rankPartyMatches parties query limit,
        (partyScore (trimS (toLowerS query)) p).isSome) := by
  constructor
  · intro p q
    refine ⟨?_, ?_, ?_, ?_, ?_, ?_⟩ <;>
      · intros
        simp_all [partyScore]
  · intro parties query limit p hp
    unfold rankPartyMatches at hp
    rw [List.mem_map] at hp
    obtain ⟨z, hz, rfl⟩ := hp
    have hz' := mem_sortScoredDesc.mp (List.mem_of_mem_take hz)
    rw [List.mem_filterMap] at hz'
    obtain ⟨a, _, ha⟩ := hz'
    rw [Option.map_eq_some'] at ha
    obtain ⟨sc, hsc, hpair⟩ := ha
    cases hpair
    simp [hsc]

/-- C8: every suggestion returned by suggest_reorder is for a low-stock
item and carries suggestedQty = max(minStock*2 - currentStock, minStock);
consequently currentStock + suggestedQty ≥ 2*minStock and suggestedQty ≥
minStock, for any integer currentStock. -/
theorem suggest_reorder_quantity (s : StoreState) (sid limit : Nat)
    (sug : Suggestion)
    (hmem : sug ∈ (suggestReorder sid limit s).data.suggestions) :
    sug.suggestedQty = max (sug.minStock * 2 - sug.currentStock) sug.minStock ∧
    sug.currentStock ≤ sug.minStock ∧
    2 * sug.minStock ≤ sug.currentStock + sug.suggestedQty ∧
    sug.minStock ≤ sug.suggestedQty := by
  unfold suggestReorder at hmem
  rcases hl : (sortKeyAsc (fun i => i.currentStock - i.minStock)
      (s.items.filter (fun i =>
        i.storeId == sid && decide (i.currentStock ≤ i.minStock)))).take limit
    with _ | ⟨a, rest⟩ <;> rw [hl] at hmem
  · simp [success] at hmem
  · simp only [success] at hmem
    rw [List.mem_map] at hmem
    obtain ⟨i, hi, rfl⟩ := hmem
    have hif : i ∈ s.items.filter (fun i =>
        i.storeId == sid && decide (i.currentStock ≤ i.minStock)) :=
      mem_sortKeyAsc.mp (List.mem_of_mem_take (hl ▸ hi))
    have hpred := (List.mem_filter.mp hif).2
    have hle : i.currentStock ≤ i.minStock := by
      simp only [Bool.and_eq_true, decide_eq_true_eq] at hpred
      exact hpred.2
    have h1 : i.minStock * 2 - i.currentStock ≤
        max (i.minStock * 2 - i.currentStock) i.minStock := le_max_left _ _
    have h2 : i.minStock ≤
        max (i.minStock * 2 - i.currentStock) i.minStock := le_max_right _ _
    exact ⟨rfl, hle, by dsimp only; omega, by dsimp only; omega⟩

/-- C8 witness: applying the theorem to the concrete store whose only
item has stock -7 and threshold 5 yields suggestedQty 17 ≥ 5 with
-7 + 17 = 10 ≥ 2 * 5. -/
theorem suggest_reorder_quantity_witness :
    ∃ sug : Suggestion, sug ∈ (suggestReorder 1 10 stLow).data.suggestions ∧
      (sug.suggestedQty = max (sug.minStock * 2 - sug.currentStock) sug.minStock ∧
       sug.currentStock ≤ sug.minStock ∧
       2 * sug.minStock ≤ sug.currentStock + sug.suggestedQty ∧
       sug.minStock ≤ sug.suggestedQty) :=
  ⟨⟨3, "Oil Can", none, -7, 5, 17, none⟩, by decide,
    suggest_reorder_quantity stLow 1 10 _ (by decide)⟩

/-- C6 witness: applying the tier theorem at the concrete party "Ramesh"
and queries hitting the 100 and 50 tiers. -/
theorem party_ranking_tiers_witness :
    partyScore "ramesh" ramesh = some 100 ∧
    partyScore "ramesh bhai" ramesh = some 50 :=
  ⟨(party_ranking_tiers.1 ramesh "ramesh").1 (by decide),
   (party_ranking_tiers.1 ramesh "ramesh bhai").2.2.1 (by decide) (by decide)
     (by decide)⟩

/-- C1: record_sale with qty exceeding the owned item's current stock
returns ok:false INSUFFICIENT_STOCK reporting the current stock and
leaves the whole state unchanged (no stock mutation, no transaction
insert); with no item of that id under the store it returns
ITEM_NOT_FOUND, also with no mutation. -/
theorem record_sale_failure_no_mutation :
    (∀ (s : StoreState) (sid iid : Nat) (qty : Int) (price : Option ℚ)
       (it : Item),
      (s.items.map Item.id).Nodup →
      it ∈ s.items → it.id = iid → it.storeId = sid →
      it.currentStock < qty →
      recordSale sid iid qty price s =
        (fail "INSUFFICIENT_STOCK"
          ("Not enough stock for " ++ it.name ++ ". Current: " ++
            toString it.currentStock ++ ", needed: " ++ toString qty ++ ".")
          { currentStock := some it.currentStock }, s)) ∧
    (∀ (s : StoreState) (sid iid : Nat) (qty : Int) (price : Option ℚ),
      (∀ it ∈ s.items, ¬(it.id = iid ∧ it.storeId = sid)) →
      recordSale sid iid qty price s =
        (fail "ITEM_NOT_FOUND" "Item not found in your store.", s)) := by
  constructor
  · intro s sid iid qty price it hnd hmem hid hsid hlt
    have hfilter : s.items.filter (saleGuard sid iid qty) = [] := by
      rw [List.filter_eq_nil_iff]
      intro j hj hgj
      simp only [saleGuard, Bool.and_eq_true, beq_iff_eq, decide_eq_true_eq] at hgj
      have hjid : j.id = it.id := by rw [hgj.1.1, hid]
      have : j = it := nodup_map_mem_inj hnd hj hmem hjid
      subst this
      omega
    have hfind : s.items.find? (fun i => i.id == iid && i.storeId == sid) =
        some it := by
      apply find?_eq_some_of_unique hmem
      · simp [hid, hsid]
      · intro b hb hpb
        simp only [Bool.and_eq_true, beq_iff_eq] at hpb
        exact nodup_map_mem_inj hnd hb hmem (by rw [hpb.1, hid])
    simp [recordSale, hfilter, hfind]
  · intro s sid iid qty price hno
    have hfilter : s.items.filter (saleGuard sid iid qty) = [] := by
      rw [List.filter_eq_nil_iff]
      intro j hj hgj
      simp only [saleGuard, Bool.and_eq_true, beq_iff_eq, decide_eq_true_eq] at hgj
      exact hno j hj ⟨hgj.1.1, hgj.1.2⟩
    have hfind : s.items.find? (fun i => i.id == iid && i.storeId == sid) =
        none := by
      rw [List.find?_eq_none]
      intro j hj hpj
      simp only [Bool.and_eq_true, beq_iff_eq] at hpj
      exact hno j hj hpj
    simp [recordSale, hfilter, hfind]

/-- C1 witness: selling 30 Maggi with stock 24 is refused with
INSUFFICIENT_STOCK reporting 24 and no state change; selling item 99
(absent) is refused with ITEM_NOT_FOUND and no state change. -/
theorem record_sale_failure_no_mutation_witness :
    recordSale 1 1 30 none stMaggi =
      (fail "INSUFFICIENT_STOCK"
        "Not enough stock for Maggi. Current: 24, needed: 30."
        { currentStock := some 24 }, stMaggi) ∧
    recordSale 1 99 5 none stMaggi =
      (fail "ITEM_NOT_FOUND" "Item not found in your store.", stMaggi) :=
  ⟨record_sale_failure_no_mutation.1 stMaggi 1 1 30 none maggi (by decide)
      (by decide) rfl rfl (by decide),
   record_sale_failure_no_mutation.2 stMaggi 1 99 5 none (by decide)⟩

/-- C2: undoing a SALE transaction of the store succeeds, adds the sale
qty back onto the item (restoring the pre-sale stock), and deletes the
transaction row; undoing the same id again returns ok:false NOT_FOUND
and changes nothing. -/
theorem undo_sale_restores_and_not_reentrant :
    ∀ (s : StoreState) (sid : Nat) (t : Txn) (it : Item),
      (s.txns.map Txn.id).Nodup →
      t ∈ s.txns → t.storeId = sid → t.type = .SALE →
      it ∈ s.items → it.id = t.itemId →
      (undoAction sid .transaction t.id s).1.ok = true ∧
      (undoAction sid .transaction t.id s).1.code = "ACTION_UNDONE" ∧
      { it with currentStock := it.currentStock + t.qty } ∈
        (undoAction sid .transaction t.id s).2.items ∧
      (∀ t2 ∈ (undoAction sid .transaction t.id s).2.txns, t2.id ≠ t.id) ∧
      (undoAction sid .transaction t.id
        (undoAction sid .transaction t.id s).2).1.ok = false ∧
      (undoAction sid .transaction t.id
        (undoAction sid .transaction t.id s).2).1.code = "NOT_FOUND" ∧
      (undoAction sid .transaction t.id
        (undoAction sid .transaction t.id s).2).2 =
        (undoAction sid .transaction t.id s).2 := by
  intro s sid t it hnd hmem hsid htype hitmem hitid
  have hfind : s.txns.find? (fun x => x.id == t.id && x.storeId == sid) =
      some t := by
    apply find?_eq_some_of_unique hmem
    · simp [hsid]
    · intro b hb hpb
      simp only [Bool.and_eq_true, beq_iff_eq] at hpb
      exact nodup_map_mem_inj hnd hb hmem hpb.1
  have hfind2 : (s.txns.filter fun x => !(x.id == t.id)).find?
      (fun x => x.id == t.id && x.storeId == sid) = none := by
    rw [List.find?_eq_none]
    intro x hx
    have hne := (List.mem_filter.mp hx).2
    simp only [Bool.not_eq_true', beq_eq_false_iff_ne, ne_eq] at hne
    simp [hne]
  refine ⟨?_, ?_, ?_, ?_, ?_, ?_, ?_⟩
  · simp [undoAction, hfind, htype, success]
  · simp [undoAction, hfind, htype, success]
  · simp only [undoAction, hfind, htype]
    have hm := List.mem_map_of_mem
      (fun (i : Item) => if i.id == t.itemId then
        { i with currentStock := i.currentStock + t.qty } else i) hitmem
    simpa [hitid] using hm
  · simp only [undoAction, hfind, htype]
    intro t2 ht2
    have hne := (List.mem_filter.mp ht2).2
    simpa using hne
  · simp [undoAction, hfind, htype, hfind2, success, fail]
  · simp [undoAction, hfind, htype, hfind2, success, fail]
  · simp [undoAction, hfind, htype, hfind2, success, fail]

/-- C2 witness: undoing the recorded SALE of 3 Maggi restores stock
24 + 3 and deletes T7; the second undo of T7 is NOT_FOUND with the state
untouched. -/
theorem undo_sale_restores_and_not_reentrant_witness :
    (undoAction 1 .transaction 7 stSale).1.ok = true ∧
    { maggi with currentStock := 27 } ∈ (undoAction 1 .transaction 7 stSale).2.items ∧
    (undoAction 1 .transaction 7 (undoAction 1 .transaction 7 stSale).2).1.code =
      "NOT_FOUND" := by
  have h := undo_sale_restores_and_not_reentrant stSale 1 ⟨7, 1, .SALE, 1, 3, none⟩
    maggi (by decide) (by decide) rfl rfl (by decide) rfl
  exact ⟨h.1, h.2.2.1, h.2.2.2.2.2.1⟩

/-- C10: undoing an ADJUST transaction of the store always succeeds,
subtracting the original signed qty unconditionally (so a positive
ADJUST undone can drive stock negative, as the closed instance with
stock 0 and qty 5 shows); UNDO_FAILED is only reachable for a STOCK_IN
transaction; and the SALE reversal is likewise an unconditional
increment. -/
theorem undo_adjust_unconditional :
    (∀ (s : StoreState) (sid : Nat) (t : Txn) (it : Item),
      (s.txns.map Txn.id).Nodup →
      t ∈ s.txns → t.storeId = sid → t.type = .ADJUST →
      it ∈ s.items → it.id = t.itemId →
      (undoAction sid .transaction t.id s).1.ok = true ∧
      (undoAction sid .transaction t.id s).1.code = "ACTION_UNDONE" ∧
      { it with currentStock := it.currentStock - t.qty } ∈
        (undoAction sid .transaction t.id s).2.items ∧
      (∀ t2 ∈ (undoAction sid .transaction t.id s).2.txns, t2.id ≠ t.id)) ∧
    (∀ (s : StoreState) (sid : Nat) (aty : ActionType) (aid : Nat),
      (undoAction sid aty aid s).1.code = "UNDO_FAILED" →
      ∃ t ∈ s.txns, t.id = aid ∧ t.storeId = sid ∧ t.type = .STOCK_IN) ∧
    (∀ (s : StoreState) (sid : Nat) (t : Txn) (it : Item),
      (s.txns.map Txn.id).Nodup →
      t ∈ s.txns → t.storeId = sid → t.type = .SALE →
      it ∈ s.items → it.id = t.itemId →
      (undoAction sid .transaction t.id s).1.ok = true ∧
      { it with currentStock := it.currentStock + t.qty } ∈
        (undoAction sid .transaction t.id s).2.items) ∧
    ((undoAction 1 .transaction 9 stAdjust).1.ok = true ∧
      (undoAction 1 .transaction 9 stAdjust).2.items.map Item.currentStock =
        [-5]) := by
  refine ⟨?_, ?_, ?_, by decide, by decide⟩
  · intro s sid t it hnd hmem hsid htype hitmem hitid
    have hfind : s.txns.find? (fun x => x.id == t.id && x.storeId == sid) =
        some t := by
      apply find?_eq_some_of_unique hmem
      · simp [hsid]
      · intro b hb hpb
        simp only [Bool.and_eq_true, beq_iff_eq] at hpb
        exact nodup_map_mem_inj hnd hb hmem hpb.1
    refine ⟨?_, ?_, ?_, ?_⟩
    · simp [undoAction, hfind, htype, success]
    · simp [undoAction, hfind, htype, success]
    · simp only [undoAction, hfind, htype]
      have hm := List.mem_map_of_mem
        (fun (i : Item) => if i.id == t.itemId then
          { i with currentStock := i.currentStock - t.qty } else i) hitmem
      simpa [hitid] using hm
    · simp only [undoAction, hfind, htype]
      intro t2 ht2
      have hne := (List.mem_filter.mp ht2).2
      simpa using hne
  · intro s sid aty aid hcode
    cases aty with
    | ledger =>
      exfalso
      simp only [undoAction] at hcode
      rcases he : s.entries.find? (fun e => e.id == aid) with _ | e <;>
        rw [he] at hcode <;> dsimp only at hcode
      · exact absurd hcode (by simp [fail])
      · rcases hp : s.parties.find?
            (fun p => p.id == e.partyId && p.storeId == sid) with _ | p <;>
          rw [hp] at hcode <;> dsimp only at hcode
        · exact absurd hcode (by simp [fail])
        · exact absurd hcode (by simp [success])
    | transaction =>
      simp only [undoAction] at hcode
      rcases hf : s.txns.find? (fun x => x.id == aid && x.storeId == sid)
          with _ | t <;> rw [hf] at hcode <;> dsimp only at hcode
      · exact absurd hcode (by simp [fail])
      · have hmem := List.mem_of_find?_eq_some hf
        have hpred := List.find?_some hf
        simp only [Bool.and_eq_true, beq_iff_eq] at hpred
        cases hty : t.type with
        | SALE =>
          rw [hty] at hcode
          exact absurd hcode (by simp [success])
        | ADJUST =>
          rw [hty] at hcode
          exact absurd hcode (by simp [success])
        | STOCK_IN =>
          rw [hty] at hcode
          split at hcode
          · exact ⟨t, hmem, hpred.1, hpred.2, hty⟩
          · exact absurd hcode (by simp [success])
  · intro s sid t it hnd hmem hsid htype hitmem hitid
    have hfind : s.txns.find? (fun x => x.id == t.id && x.storeId == sid) =
        some t := by
      apply find?_eq_some_of_unique hmem
      · simp [hsid]
      · intro b hb hpb
        simp only [Bool.and_eq_true, beq_iff_eq] at hpb
        exact nodup_map_mem_inj hnd hb hmem hpb.1
    constructor
    · simp [undoAction, hfind, htype, success]
    · simp only [undoAction, hfind, htype]
      have hm := List.mem_map_of_mem
        (fun (i : Item) => if i.id == t.itemId then
          { i with currentStock := i.currentStock + t.qty } else i) hitmem
      simpa [hitid] using hm

/-- C10 witness: applying the ADJUST part to the concrete store where
T9 adjusts item 2 by +5 on stock 0 yields success with the item at -5. -/
theorem undo_adjust_unconditional_witness :
    (undoAction 1 .transaction 9 stAdjust).1.ok = true ∧
    { oilItem with currentStock := -5 } ∈
      (undoAction 1 .transaction 9 stAdjust).2.items := by
  have h := undo_adjust_unconditional.1 stAdjust 1 ⟨9, 1, .ADJUST, 2, 5, none⟩
    oilItem (by decide) (by decide) rfl rfl (by decide) rfl
  exact ⟨h.1, h.2.2.1⟩

/-- C7: receive_payment never creates a ledger party; when no party
matches it returns ok:false PARTY_NOT_FOUND and appends no entry; when a
party is resolved (single match, or exact top match) it appends an entry
with delta -amount and succeeds with PAYMENT_RECEIVED regardless of the
resulting balance sign, and the warning text is non-empty exactly when
the balance is negative (warn, never block). -/
theorem receive_payment_no_autocreate :
    (∀ (s : StoreState) (sid : Nat) (pname : String) (amount : ℚ)
       (note : Option String),
      (receivePayment sid pname amount note s).2.parties = s.parties) ∧
    (∀ (s : StoreState) (sid : Nat) (pname : String) (amount : ℚ)
       (note : Option String),
      rankPartyMatches (s.parties.filter (fun p => p.storeId == sid)) pname 3 = [] →
      (receivePayment sid pname amount note s).1.ok = false ∧
      (receivePayment sid pname amount note s).1.code = "PARTY_NOT_FOUND" ∧
      (receivePayment sid pname amount note s).2 = s) ∧
    (∀ (s : StoreState) (sid : Nat) (pname : String) (amount : ℚ)
       (note : Option String) (party : Party) (rest : List Party),
      rankPartyMatches (s.parties.filter (fun p => p.storeId == sid)) pname 3 =
        party :: rest →
      (rest = [] ∨ toLowerS party.name = trimS (toLowerS pname)) →
      (receivePayment sid pname amount note s).1.ok = true ∧
      (receivePayment sid pname amount note s).1.code = "PAYMENT_RECEIVED" ∧
      (receivePayment sid pname amount note s).2.entries =
        s.entries ++ [(⟨s.nextEntryId, party.id, -amount, note⟩ : Entry)] ∧
      (receivePayment sid pname amount note s).1.data.newBalance =
        some (partyBalance party.id
          (s.entries ++ [(⟨s.nextEntryId, party.id, -amount, note⟩ : Entry)]))) ∧
    (∀ (b : ℚ) (n : String), b < 0 → receivePaymentWarning b n ≠ "") := by
  refine ⟨?_, ?_, ?_, ?_⟩
  · intro s sid pname amount note
    simp only [receivePayment]
    rcases hm : rankPartyMatches (s.parties.filter (fun p => p.storeId == sid))
        pname 3 with _ | ⟨party, rest⟩
    · rfl
    · dsimp only
      split
      · rfl
      · rfl
  · intro s sid pname amount note hm
    simp only [receivePayment, hm]
    simp [fail]
  · intro s sid pname amount note party rest hm hor
    have hcond : (rest.length > 0 &&
        !(toLowerS party.name == trimS (toLowerS pname))) = false := by
      rcases hor with rfl | hexact
      · simp
      · simp [hexact]
    simp only [receivePayment, hm]
    rw [if_neg (by simp [hcond])]
    simp [success]
  · intro b n hb
    rw [receivePaymentWarning, if_pos hb]
    intro h
    have hd := congrArg String.data h
    simp [String.data_append] at hd

/-- C7 witness: with only Ramesh (owing 100) in the ledger, a payment of
300 from "Ramesh" resolves and succeeds with PAYMENT_RECEIVED, appending
the -300 entry and leaving the party set unchanged; a payment from
"Suresh" matches nobody and fails with PARTY_NOT_FOUND appending
nothing; and the warning text at balance -200 is non-empty. -/
theorem receive_payment_no_autocreate_witness :
    (receivePayment 1 "Ramesh" 300 none stRamesh).2.parties = stRamesh.parties ∧
    (receivePayment 1 "Ramesh" 300 none stRamesh).1.code = "PAYMENT_RECEIVED" ∧
    (receivePayment 1 "Ramesh" 300 none stRamesh).2.entries =
      stRamesh.entries ++ [(⟨2, 1, -300, none⟩ : Entry)] ∧
    (receivePayment 1 "Suresh" 50 none stRamesh).1.code = "PARTY_NOT_FOUND" ∧
    (receivePayment 1 "Suresh" 50 none stRamesh).2 = stRamesh ∧
    receivePaymentWarning (-200) "Ramesh" ≠ "" := by
  have h3 := receive_payment_no_autocreate.2.2.1 stRamesh 1 "Ramesh" 300 none
    ramesh [] (by decide) (Or.inl rfl)
  have h2 := receive_payment_no_autocreate.2.1 stRamesh 1 "Suresh" 50 none
    (by decide)
  have h4 := receive_payment_no_autocreate.2.2.2 (-200) "Ramesh" (by norm_num)
  exact ⟨receive_payment_no_autocreate.1 stRamesh 1 "Ramesh" 300 none,
    h3.2.1, h3.2.2.1, h2.2.1, h2.2.2, h4⟩

/-- C3 (amended): add_stock with item_id null refuses with
AMBIGUOUS_MATCH listing the candidates and performs no mutation whenever
the name has more than one fuzzy candidate and none of them is an exact
name-or-alias match; add_stock_batch, however, resolves each line with
limit 1 and always returns ok:true STOCK_ADDED, never AMBIGUOUS_MATCH. -/
theorem add_stock_ambiguity_gate :
    (∀ (s : StoreState) (sid : Nat) (name : String) (qty : Int)
       (unit : Option String) (cost : Option ℚ),
      1 < (rankItemMatches (s.items.filter (fun i => i.storeId == sid))
        name 3).length →
      (∀ m ∈ rankItemMatches (s.items.filter (fun i => i.storeId == sid)) name 3,
        exactItemMatch (trimS (toLowerS name)) m = false) →
      addStock sid none name qty unit cost s =
        (fail "AMBIGUOUS_MATCH"
          ("Multiple items match \"" ++ name ++ "\". Which one?")
          { candidates := (rankItemMatches
              (s.items.filter (fun i => i.storeId == sid)) name 3).map
              fun x => { id := x.id, name := x.name, aliases := x.aliases } },
         s)) ∧
    (∀ (s : StoreState) (sid : Nat) (entries : List BatchStockEntry),
      (addStockBatch sid entries s).1.ok = true ∧
      (addStockBatch sid entries s).1.code = "STOCK_ADDED") := by
  constructor
  · intro s sid name qty unit cost hlen hexact
    rcases hm : rankItemMatches (s.items.filter (fun i => i.storeId == sid))
        name 3 with _ | ⟨m, _ | ⟨m2, rest⟩⟩
    · rw [hm] at hlen; simp at hlen
    · rw [hm] at hlen; simp at hlen
    · have hme : exactItemMatch (trimS (toLowerS name)) m = false :=
        hexact m (by rw [hm]; exact List.mem_cons_self _ _)
      simp only [addStock, hm]
      rw [if_neg (by simp [hme])]
  · intro s sid entries
    exact ⟨rfl, rfl⟩

/-- C3 counterexample: on the concrete catalog where the query "cola"
fuzzily matches two items (prefix tier 70 and substring tier 40), with
no exact name-or-alias match among them, add_stock refuses with
AMBIGUOUS_MATCH, but the add_stock_batch line silently increments the
top-ranked item's stock and reports STOCK_ADDED — refuting the claim for
add_stock_batch. -/
theorem add_stock_batch_ambiguity_counterexample :
    (rankItemMatches (stCola.items.filter (fun i => i.storeId == 1))
      "cola" 3).map Item.id = [2, 1] ∧
    exactItemMatch (trimS (toLowerS "cola")) colaCandy = false ∧
    exactItemMatch (trimS (toLowerS "cola")) cocaCola = false ∧
    (addStock 1 none "cola" 5 none none stCola).1.code = "AMBIGUOUS_MATCH" ∧
    (addStockBatch 1 [⟨"cola", 5, none, none⟩] stCola).1.code = "STOCK_ADDED" ∧
    (addStockBatch 1 [⟨"cola", 5, none, none⟩] stCola).2.items.map
      Item.currentStock = [10, 15] := by
  decide

/-- C3 witness: applying the gate theorem to the concrete ambiguous
catalog yields the AMBIGUOUS_MATCH refusal with both candidates listed
and the state unchanged. -/
theorem add_stock_ambiguity_gate_witness :
    addStock 1 none "cola" 5 none none stCola =
      (fail "AMBIGUOUS_MATCH" "Multiple items match \"cola\". Which one?"
        { candidates := [⟨2, "Cola Candy", []⟩, ⟨1, "Coca Cola", []⟩] },
       stCola) ∧
    (addStockBatch 1 [⟨"cola", 5, none, none⟩] stCola).1.code =
      "STOCK_ADDED" := by
  constructor
  · have h := add_stock_ambiguity_gate.1 stCola 1 "cola" 5 none none
      (by decide) (by decide)
    rw [h]
    decide
  · exact (add_stock_ambiguity_gate.2 stCola 1 [⟨"cola", 5, none, none⟩]).2

/-- C5: item ranking assigns each candidate the score of the first
matching tier (exact name 100, exact alias 90, name prefix 70, alias
prefix 60, name substring 40, alias substring 30), excludes candidates
matching no tier, and returns matched candidates sorted descending by
score, truncated to the limit; in particular, on the concrete catalog
where the query equals an alias of one item while two others merely
contain it, the alias-exact item (90) is ranked first ahead of the
substring matches (40). -/
theorem item_ranking_spec :
    (∀ (allItems : List Item) (query : String) (limit : Nat),
      (rankItemMatches allItems query limit).length ≤ limit ∧
      (∀ it ∈ rankItemMatches allItems query limit,
        it ∈ allItems ∧ (itemScore (trimS (toLowerS query)) it).isSome) ∧
      (∀ it ∈ allItems, itemScore (trimS (toLowerS query)) it = none →
        it ∉ rankItemMatches allItems query limit) ∧
      (rankItemMatches allItems query limit).Pairwise
        (fun a b => (itemScore (trimS (toLowerS query)) b).getD 0 ≤
                    (itemScore (trimS (toLowerS query)) a).getD 0)) ∧
    (∀ (q : String) (it : Item),
      (toLowerS it.name = q → itemScore q it = some 100) ∧
      (toLowerS it.name ≠ q →
        it.aliases.any (fun a => toLowerS a = q) = true →
        itemScore q it = some 90) ∧
      (toLowerS it.name ≠ q →
        it.aliases.any (fun a => toLowerS a = q) = false →
        startsWithS (toLowerS it.name) q = true → itemScore q it = some 70) ∧
      (toLowerS it.name ≠ q →
        it.aliases.any (fun a => toLowerS a = q) = false →
        startsWithS (toLowerS it.name) q = false →
        it.aliases.any (fun a => startsWithS (toLowerS a) q) = true →
        itemScore q it = some 60) ∧
      (toLowerS it.name ≠ q →
        it.aliases.any (fun a => toLowerS a = q) = false →
        startsWithS (toLowerS it.name) q = false →
        it.aliases.any (fun a => startsWithS (toLowerS a) q) = false →
        containsSub (toLowerS it.name) q = true → itemScore q it = some 40) ∧
      (toLowerS it.name ≠ q →
        it.aliases.any (fun a => toLowerS a = q) = false →
        startsWithS (toLowerS it.name) q = false →
        it.aliases.any (fun a => startsWithS (toLowerS a) q) = false →
        containsSub (toLowerS it.name) q = false →
        it.aliases.any (fun a => containsSub (toLowerS a) q) = true →
        itemScore q it = some 30) ∧
      (toLowerS it.name ≠ q →
        it.aliases.any (fun a => toLowerS a = q) = false →
        startsWithS (toLowerS it.name) q = false →
        it.aliases.any (fun a => startsWithS (toLowerS a) q) = false →
        containsSub (toLowerS it.name) q = false →
        it.aliases.any (fun a => containsSub (toLowerS a) q) = false →
        itemScore q it = none)) ∧
    (rankItemMatches doodhCatalog "Doodh " 5 =
      [amulMilk, parleDoodh, dairyDoodh] ∧
     itemScore "doodh" amulMilk = some 90 ∧
     itemScore "doodh" parleDoodh = some 40 ∧
     itemScore "doodh" dairyDoodh = some 40) := by
  refine ⟨?_, ?_, by decide⟩
  · intro allItems query limit
    have hmem : ∀ it ∈ rankItemMatches allItems query limit,
        it ∈ allItems ∧ (itemScore (trimS (toLowerS query)) it).isSome := by
      intro it hit
      unfold rankItemMatches at hit
      rw [List.mem_map] at hit
      obtain ⟨z, hz, rfl⟩ := hit
      have hz' := mem_sortScoredDesc.mp (List.mem_of_mem_take hz)
      rw [List.mem_filterMap] at hz'
      obtain ⟨a, ha, hfa⟩ := hz'
      rw [Option.map_eq_some'] at hfa
      obtain ⟨sc, hsc, hpair⟩ := hfa
      cases hpair
      exact ⟨ha, by simp [hsc]⟩
    have hinv : ∀ z ∈ sortScoredDesc (allItems.filterMap fun it =>
        (itemScore (trimS (toLowerS query)) it).map fun sc => (it, sc)),
        itemScore (trimS (toLowerS query)) z.1 = some z.2 := by
      intro z hz
      have hz' := mem_sortScoredDesc.mp hz
      rw [List.mem_filterMap] at hz'
      obtain ⟨a, _, hfa⟩ := hz'
      rw [Option.map_eq_some'] at hfa
      obtain ⟨sc, hsc, hpair⟩ := hfa
      cases hpair
      simpa using hsc
    refine ⟨?_, hmem, ?_, ?_⟩
    · unfold rankItemMatches
      simp only [List.length_map, List.length_take]
      exact min_le_left _ _
    · intro it _ hnone hit
      have := (hmem it hit).2
      rw [hnone] at this
      simp at this
    · unfold rankItemMatches
      rw [List.pairwise_map]
      have hsorted := pairwise_sortScoredDesc (allItems.filterMap fun it =>
        (itemScore (trimS (toLowerS query)) it).map fun sc => (it, sc))
      have hS := hsorted.imp_of_mem (fun {a b} ha hb hr => by
        have h1 := hinv a ha
        have h2 := hinv b hb
        show (itemScore (trimS (toLowerS query)) b.1).getD 0 ≤
          (itemScore (trimS (toLowerS query)) a.1).getD 0
        rw [h1, h2]
        simpa using hr)
      exact List.Pairwise.sublist (List.take_sublist _ _) hS
  · intro q it
    refine ⟨?_, ?_, ?_, ?_, ?_, ?_, ?_⟩ <;>
      · intros
        simp only [itemScore]
        simp [*]

/-- C5 witness: applying the theorem on the concrete catalog: the
alias-exact item is a returned candidate belonging to the catalog with a
matched tier, and the 90 tier applies to it. -/
theorem item_ranking_spec_witness :
    (amulMilk ∈ doodhCatalog ∧
      (itemScore (trimS (toLowerS "Doodh ")) amulMilk).isSome) ∧
    itemScore "doodh" amulMilk = some 90 :=
  ⟨((item_ranking_spec.1 doodhCatalog "Doodh " 5).2.1 amulMilk (by decide)),
   (item_ranking_spec.2.1 "doodh" amulMilk).2.1 (by decide) (by decide)⟩

end Kirana
